import Mathlib

/-!
Shallow embedding of the serial MIDI bridge (serialmidi.py) and proofs
about its message-length classifier, running-status reassembler,
hardware-envelope encoder, port selection and lifecycle control flow.

Bytes are modelled as `Nat` (values 0..255 where it matters), Python
lists/bytes as `List Nat`, and the stateful serial watcher loop as an
explicit state-passing step function processing one received byte at a
time (`ser.read()` delivers at most one byte per call by default).
-/

set_option maxHeartbeats 1000000

namespace Serialmidi

/-- Embedding of `get_midi_length` (serialmidi.py lines 29-49): the
message-length classifier.  The Python code returns early; the chain of
`if` tests below reproduces the same order.  Note that an unterminated
sysex (`opcode == 0xF0`, last byte not `0xF7`) falls through the sysex
test and, since `0xF0 &&& 0xF0 = 0xF0` matches no later row, yields the
sentinel 100. -/
def get_midi_length (message : List Nat) : Nat :=
  match message with
  | [] => 100
  | opcode :: rest =>
    if 0xF4 ≤ opcode then 1
    else if opcode = 0xF1 ∨ opcode = 0xF3 then 2
    else if opcode = 0xF2 then 3
    else if opcode = 0xF0 ∧ (opcode :: rest).getLastD 0 = 0xF7 then (opcode :: rest).length
    else if opcode &&& 0xF0 = 0x80 ∨ opcode &&& 0xF0 = 0x90 ∨ opcode &&& 0xF0 = 0xA0 ∨
            opcode &&& 0xF0 = 0xB0 ∨ opcode &&& 0xF0 = 0xE0 then 3
    else if opcode &&& 0xF0 = 0xC0 ∨ opcode &&& 0xF0 = 0xD0 then 2
    else 100

/-- Unfolding equation of `get_midi_length` on a nonempty buffer. -/
theorem get_midi_length_cons (opcode : Nat) (rest : List Nat) :
    get_midi_length (opcode :: rest) =
      if 0xF4 ≤ opcode then 1
      else if opcode = 0xF1 ∨ opcode = 0xF3 then 2
      else if opcode = 0xF2 then 3
      else if opcode = 0xF0 ∧ (opcode :: rest).getLastD 0 = 0xF7 then (opcode :: rest).length
      else if opcode &&& 0xF0 = 0x80 ∨ opcode &&& 0xF0 = 0x90 ∨ opcode &&& 0xF0 = 0xA0 ∨
              opcode &&& 0xF0 = 0xB0 ∨ opcode &&& 0xF0 = 0xE0 then 3
      else if opcode &&& 0xF0 = 0xC0 ∨ opcode &&& 0xF0 = 0xD0 then 2
      else 100 := rfl

/-- State of the serial watcher loop (serialmidi.py lines 86-118):
the accumulated partial buffer and the running-status byte.
`running_status` starts at 0. -/
structure RSState where
  receiving_message : List Nat
  running_status : Nat
deriving DecidableEq, Repr

/-- The append plus running-status block of `serial_watcher`
(serialmidi.py lines 96-103) for one received byte: append the byte;
if the buffer now has exactly one element, either record it as the new
running status (when its high nibble `&&& 0xF0` is nonzero) or replace
the buffer by `[running_status, byte]`.  Returns the updated buffer and
running status before the length check. -/
def running_status_step (st : RSState) (b : Nat) : List Nat × Nat :=
  if (st.receiving_message ++ [b]).length = 1 then
    if (st.receiving_message ++ [b]).headD 0 &&& 0xF0 ≠ 0 then
      (st.receiving_message ++ [b], (st.receiving_message ++ [b]).headD 0)
    else ([st.running_status, (st.receiving_message ++ [b]).headD 0], st.running_status)
  else (st.receiving_message ++ [b], st.running_status)

/-- One full iteration of the `serial_watcher` loop body for one byte
(serialmidi.py lines 94-118): running-status handling, then the
completeness check `get_midi_length(msg) <= len(msg)`; on completion the
buffer is emitted (put on the outgoing queue) and cleared. -/
def feedByte (st : RSState) (b : Nat) : RSState × Option (List Nat) :=
  if get_midi_length (running_status_step st b).1 ≤ (running_status_step st b).1.length then
    (⟨[], (running_status_step st b).2⟩, some (running_status_step st b).1)
  else (⟨(running_status_step st b).1, (running_status_step st b).2⟩, none)

/-- Feed a list of bytes one at a time, collecting the emitted messages
in order. -/
def feedAll : RSState → List Nat → RSState × List (List Nat)
  | st, [] => (st, [])
  | st, b :: bs =>
    match feedByte st b with
    | (st1, out) =>
      match feedAll st1 bs with
      | (st2, outs) => (st2, out.toList ++ outs)

/-- The fixed header of `wrap_message_for_mega_pro` (serialmidi.py line 53). -/
def mega_pro_header : List Nat := [0x2B, 0xD4, 0x1A, 0xE5, 0x01, 0x81, 0x00, 0x00]

/-- Embedding of Python's `int.to_bytes(width, "big")` on a natural
number: big-endian digits, or `none` (OverflowError) when the value does
not fit. -/
def int_to_bytes_be (n : Nat) (width : Nat) : Option (List Nat) :=
  if n < 2 ^ (8 * width) then
    some ((List.range width).map (fun i => n / 2 ^ (8 * (width - 1 - i)) % 256))
  else none

/-- Embedding of `wrap_message_for_mega_pro` (serialmidi.py lines 52-56):
header, 4-byte big-endian length, one padding byte, then the payload. -/
def wrap_message_for_mega_pro (message : List Nat) : Option (List Nat) :=
  (int_to_bytes_be message.length 4).map
    (fun len_bytes => mega_pro_header ++ len_bytes ++ [0x00] ++ message)

/-- Big-endian value of a byte list (to state that the length field
encodes the payload length). -/
def be_value (bs : List Nat) : Nat := bs.foldl (fun acc b => acc * 256 + b) 0

/-- Does `hay` begin with `needle`?  (Helper for Python's substring
test `needle in hay`.) -/
def leadsWith : List Nat → List Nat → Bool
  | [], _ => true
  | _ :: _, [] => false
  | a :: ta, b :: tb => a == b && leadsWith ta tb

/-- Embedding of Python's substring containment `needle in hay` on
strings, with strings modelled as lists of character codes. -/
def hasSub (needle : List Nat) : List Nat → Bool
  | [] => leadsWith needle []
  | b :: t => leadsWith needle (b :: t) || hasSub needle t

/-- The port-scanning loop of `midi_watcher` (serialmidi.py lines
133-138): iterate over the enumerated names with a running index,
overwriting the accumulator with the index of every name that contains
the configured name.  The accumulator starts at -1. -/
def scan_ports (given : List Nat) : List (List Nat) → Nat → Int → Int
  | [], _, acc => acc
  | s :: rest, i, acc =>
    scan_ports given rest (i + 1) (if hasSub given s then (i : Int) else acc)

/-- Port index resolution as performed by `midi_watcher` for one
direction: the scan starting at index 0 with accumulator -1. -/
def find_port_index (given : List Nat) (ports : List (List Nat)) : Int :=
  scan_ports given ports 0 (-1)

/-- Observable lifecycle state of the bridge process: which transports
are open, the readiness and keep-running flags, whether a port-lookup
failure was reported, and whether the process has exited. -/
structure SysState where
  serial_open : Bool
  midi_in_open : Bool
  midi_out_open : Bool
  midi_ready : Bool
  thread_running : Bool
  reported_midi_failure : Bool
  exited : Bool
deriving DecidableEq, Repr

/-- Initial lifecycle state set up by `SerialMidi.__init__`
(serialmidi.py lines 60-70): nothing open, `thread_running = True`,
`midi_ready = False`. -/
def initState : SysState :=
  { serial_open := false, midi_in_open := false, midi_out_open := false,
    midi_ready := false, thread_running := true,
    reported_midi_failure := false, exited := false }

/-- Control flow of `midi_watcher` (serialmidi.py lines 120-162) at the
lifecycle level: resolve both port indices; if either is -1, report the
failure, clear `thread_running`, set `midi_ready` and exit; otherwise
open both MIDI ports and set `midi_ready` (the pump loop then runs). -/
def midi_watcher (name_in name_out : List Nat)
    (ports_in ports_out : List (List Nat)) (st : SysState) : SysState :=
  if find_port_index name_in ports_in = -1 ∨ find_port_index name_out ports_out = -1 then
    { st with reported_midi_failure := true, thread_running := false,
              midi_ready := true, exited := true }
  else
    { st with midi_in_open := true, midi_out_open := true, midi_ready := true }

/-- Control flow of `SerialMidi.start` (serialmidi.py lines 164-180) at
the lifecycle level: try to open the serial port first; on success start
the workers (`midi_watcher` among them); on failure run `midi_watcher`
in diagnostic mode and exit. -/
def start (serial_ok : Bool) (name_in name_out : List Nat)
    (ports_in ports_out : List (List Nat)) : SysState :=
  if serial_ok then
    midi_watcher name_in name_out ports_in ports_out
      { initState with serial_open := true }
  else
    { midi_watcher name_in name_out ports_in ports_out initState with exited := true }

/-- C1: the spec claims feeding 0x90 0x40 0x7F 0x41 0x7F emits two
messages via running status.  The code emits only one: at the message
boundary the byte 0x41 has nonzero high nibble, so the check
`(receiving_message[0] & 0xF0) != 0` records it as a new running status
instead of synthesizing `[0x90, 0x41]`, and the buffer `[0x41, 0x7F]`
classifies as 100 (incomplete).  This theorem evaluates the embedded
watcher at the failing input. -/
theorem c1_running_status_code_bug :
    feedAll ⟨[], 0⟩ [0x90, 0x40, 0x7F, 0x41, 0x7F] =
      (⟨[0x41, 0x7F], 0x41⟩, [[0x90, 0x40, 0x7F]]) := by decide

/-- C6: the spec claims the running-status state changes only on an
explicit status byte (≥ 0x80) and that real-time bytes (≥ 0xF4) never
change it.  In the code any first byte with nonzero high nibble
overwrites it: the data byte 0x41 and the real-time byte 0xF8 both do. -/
theorem c6_running_status_mutation_code_bug :
    ((feedByte ⟨[], 0x90⟩ 0x41).1).running_status = 0x41 ∧
    ((feedByte ⟨[], 0x90⟩ 0xF8).1).running_status = 0xF8 := by decide

/-- C3 counterexample: an unterminated sysex IS emitted once the buffer
reaches 100 bytes, because the sentinel 100 is then ≤ the buffer length.
Feeding 0xF0 followed by 99 zero bytes (last byte 0, not 0xF7) emits the
whole 100-byte buffer. -/
theorem c3_counterexample :
    (feedAll ⟨[], 0⟩ (0xF0 :: List.replicate 99 0x00)).2 =
      [0xF0 :: List.replicate 99 0x00] ∧
    (0xF0 :: List.replicate 99 0x00).getLastD 0 ≠ 0xF7 := by decide

/-- C7 counterexample: feeding 0xF8 then 0x05 makes the reassembler
emit `[0xF8]` and then, via running-status substitution, the two-byte
buffer `[0xF8, 0x05]` whose classified length is 1 — an emission where
the classifier's verdict is strictly less than the emitted length. -/
theorem c7_counterexample :
    feedAll ⟨[], 0⟩ [0xF8, 0x05] = (⟨[], 0xF8⟩, [[0xF8], [0xF8, 0x05]]) ∧
    get_midi_length [0xF8, 0x05] = 1 ∧ ([0xF8, 0x05] : List Nat).length = 2 := by decide

/-- C5 counterexample: with enumerated port names `[1]` and `[1, 2]`
(both containing the configured name `[1]`), the scan keeps overwriting
the index and returns 1, the LAST match, not the first (index 0). -/
theorem c5_counterexample :
    find_port_index [1] [[1], [1, 2]] = 1 ∧ hasSub [1] [1] = true := by decide

/-- C8 counterexample: when the serial port opened successfully and
neither MIDI port name matches, the process terminates with the serial
transport still open — contradicting "no transport is open at
termination". -/
theorem c8_counterexample :
    (start true [2] [2] [[1]] [[1]]).serial_open = true ∧
    (start true [2] [2] [[1]] [[1]]).exited = true ∧
    (start true [2] [2] [[1]] [[1]]).midi_in_open = false ∧
    (start true [2] [2] [[1]] [[1]]).midi_out_open = false := by decide

set_option maxRecDepth 4096 in
/-- Bytes with high nibble in the channel-voice rows lie below 0xF0, so
the earlier rows of the classifier do not apply to them. -/
theorem and_range_cases : ∀ b : Nat, b < 256 →
    ((b &&& 0xF0 = 0x80 ∨ b &&& 0xF0 = 0x90 ∨ b &&& 0xF0 = 0xA0 ∨ b &&& 0xF0 = 0xB0 ∨
        b &&& 0xF0 = 0xE0) → 0x80 ≤ b ∧ b < 0xF0) ∧
    ((b &&& 0xF0 = 0xC0 ∨ b &&& 0xF0 = 0xD0) → 0xC0 ≤ b ∧ b < 0xE0) := by decide

/-- Classifier value on a channel-voice opcode with high nibble in
8/9/A/B/E. -/
theorem get_midi_length_channel3 (b : Nat) (rest : List Nat)
    (hlo : 0x80 ≤ b) (hhi : b < 0xF0)
    (h : b &&& 0xF0 = 0x80 ∨ b &&& 0xF0 = 0x90 ∨ b &&& 0xF0 = 0xA0 ∨ b &&& 0xF0 = 0xB0 ∨
      b &&& 0xF0 = 0xE0) :
    get_midi_length (b :: rest) = 3 := by
  rw [get_midi_length_cons, if_neg (by omega), if_neg (by omega), if_neg (by omega),
      if_neg (fun hc => absurd hc.1 (by omega)), if_pos h]

/-- Classifier value on a channel-voice opcode with high nibble C/D. -/
theorem get_midi_length_channel2 (b : Nat) (rest : List Nat)
    (hlo : 0xC0 ≤ b) (hhi : b < 0xE0)
    (h : b &&& 0xF0 = 0xC0 ∨ b &&& 0xF0 = 0xD0) :
    get_midi_length (b :: rest) = 2 := by
  have h5 : ¬(b &&& 0xF0 = 0x80 ∨ b &&& 0xF0 = 0x90 ∨ b &&& 0xF0 = 0xA0 ∨ b &&& 0xF0 = 0xB0 ∨
      b &&& 0xF0 = 0xE0) := by
    rcases h with h | h <;> rw [h] <;> decide
  rw [get_midi_length_cons, if_neg (by omega), if_neg (by omega), if_neg (by omega),
      if_neg (fun hc => absurd hc.1 (by omega)), if_neg h5, if_pos h]

/-- C2: the classifier obeys the opcode-length table exactly: 1 for
first byte ≥ 0xF4; 2 for 0xF1/0xF3; 3 for 0xF2; 3 for high nibble in
8/9/A/B/E and 2 for C/D regardless of low nibble; a sysex buffer
(first byte 0xF0) returns its length when the last byte is 0xF7 and the
sentinel 100 otherwise; the empty buffer returns 100. -/
theorem c2_classifier_table :
    (∀ (b : Nat) (rest : List Nat), b ≤ 0xFF →
      ((0xF4 ≤ b → get_midi_length (b :: rest) = 1) ∧
       (b = 0xF1 ∨ b = 0xF3 → get_midi_length (b :: rest) = 2) ∧
       (b = 0xF2 → get_midi_length (b :: rest) = 3) ∧
       (b &&& 0xF0 = 0x80 ∨ b &&& 0xF0 = 0x90 ∨ b &&& 0xF0 = 0xA0 ∨
          b &&& 0xF0 = 0xB0 ∨ b &&& 0xF0 = 0xE0 → get_midi_length (b :: rest) = 3) ∧
       (b &&& 0xF0 = 0xC0 ∨ b &&& 0xF0 = 0xD0 → get_midi_length (b :: rest) = 2))) ∧
    (∀ t : List Nat,
      ((0xF0 :: t).getLastD 0 = 0xF7 →
        get_midi_length (0xF0 :: t) = (0xF0 :: t).length) ∧
      ((0xF0 :: t).getLastD 0 ≠ 0xF7 → get_midi_length (0xF0 :: t) = 100)) ∧
    get_midi_length [] = 100 := by
  refine ⟨fun b rest hb =>
    ⟨fun h1 => ?_, fun h2 => ?_, fun h3 => ?_, fun h4 => ?_, fun h5 => ?_⟩,
    fun t => ⟨fun h => ?_, fun h => ?_⟩, rfl⟩
  · rw [get_midi_length_cons, if_pos h1]
  · rw [get_midi_length_cons, if_neg (by omega), if_pos h2]
  · rw [get_midi_length_cons, if_neg (by omega), if_neg (by omega), if_pos h3]
  · exact get_midi_length_channel3 b rest ((and_range_cases b (by omega)).1 h4).1
      ((and_range_cases b (by omega)).1 h4).2 h4
  · exact get_midi_length_channel2 b rest ((and_range_cases b (by omega)).2 h5).1
      ((and_range_cases b (by omega)).2 h5).2 h5
  · rw [get_midi_length_cons, if_neg (by decide), if_neg (by decide), if_neg (by decide),
        if_pos ⟨rfl, h⟩]
  · rw [get_midi_length_cons, if_neg (by decide), if_neg (by decide), if_neg (by decide),
        if_neg (fun hc => h hc.2), if_neg (by decide), if_neg (by decide)]

/-- Witness for C2 at concrete inputs: a note-on with low nibble 5 has
length 3, and a terminated three-byte sysex classifies to its length. -/
theorem c2_witness :
    get_midi_length [0x95, 0x01, 0x02] = 3 ∧
    get_midi_length (0xF0 :: [0x41, 0xF7]) = (0xF0 :: [0x41, 0xF7]).length :=
  ⟨(c2_classifier_table.1 0x95 [0x01, 0x02] (by norm_num)).2.2.2.1 (by decide),
   (c2_classifier_table.2.1 [0x41, 0xF7]).1 (by decide)⟩

/-- C3 amended: an unterminated sysex buffer is never emitted as long
as it is shorter than 100 bytes (the classifier returns the sentinel
100, which exceeds its length); once it reaches 100 bytes the sentinel
no longer exceeds the length and the buffer IS emitted. -/
theorem c3_unterminated_sysex_amended (st : RSState) (b : Nat)
    (hbuf : (running_status_step st b).1.headD 0 = 0xF0)
    (hlast : (running_status_step st b).1.getLastD 0 ≠ 0xF7) :
    ((running_status_step st b).1.length < 100 → (feedByte st b).2 = none) ∧
    (100 ≤ (running_status_step st b).1.length →
      (feedByte st b).2 = some (running_status_step st b).1) := by
  have hlen : get_midi_length (running_status_step st b).1 = 100 := by
    rcases hmsg : (running_status_step st b).1 with _ | ⟨o, t⟩
    · rw [hmsg] at hbuf
      simp at hbuf
    · rw [hmsg] at hbuf hlast
      simp at hbuf
      subst hbuf
      rw [get_midi_length_cons, if_neg (by decide), if_neg (by decide), if_neg (by decide),
          if_neg (fun hc => hlast hc.2), if_neg (by decide), if_neg (by decide)]
  constructor
  · intro hsmall
    rw [feedByte]
    rw [if_neg (by omega)]
  · intro hbig
    rw [feedByte]
    rw [if_pos (by omega)]

/-- Witness for C3: a three-byte unterminated sysex is not emitted,
while the hundredth byte of an unterminated sysex triggers emission. -/
theorem c3_witness :
    (feedByte ⟨[0xF0, 0x01], 0xF0⟩ 0x02).2 = none ∧
    (feedByte ⟨0xF0 :: List.replicate 98 0x00, 0xF0⟩ 0x00).2 =
      some (running_status_step ⟨0xF0 :: List.replicate 98 0x00, 0xF0⟩ 0x00).1 :=
  ⟨(c3_unterminated_sysex_amended ⟨[0xF0, 0x01], 0xF0⟩ 0x02 (by decide)
      (by decide)).1 (by decide),
   (c3_unterminated_sysex_amended ⟨0xF0 :: List.replicate 98 0x00, 0xF0⟩ 0x00
      (by decide) (by decide)).2 (by decide)⟩

/-- C4: for every message that fits a 32-bit length (Python raises
OverflowError otherwise), the hardware envelope is exactly the fixed
8-byte header, then 4 length bytes whose big-endian value is the payload
length, then one 0x00 padding byte, then the payload unchanged; and the
concrete example from the spec holds byte-for-byte. -/
theorem c4_wrap_envelope :
    (∀ m : List Nat, m.length < 2 ^ 32 →
      ∃ lb : List Nat, int_to_bytes_be m.length 4 = some lb ∧ lb.length = 4 ∧
        be_value lb = m.length ∧
        wrap_message_for_mega_pro m = some (mega_pro_header ++ lb ++ [0x00] ++ m)) ∧
    wrap_message_for_mega_pro [0x90, 0x40, 0x7F] =
      some [0x2B, 0xD4, 0x1A, 0xE5, 0x01, 0x81, 0x00, 0x00,
            0x00, 0x00, 0x00, 0x03, 0x00, 0x90, 0x40, 0x7F] := by
  constructor
  · intro m hm
    refine ⟨[m.length / 2 ^ 24 % 256, m.length / 2 ^ 16 % 256,
             m.length / 2 ^ 8 % 256, m.length % 256], ?_, rfl, ?_, ?_⟩
    · rw [int_to_bytes_be, if_pos (by norm_num at hm ⊢; omega)]
      norm_num [List.range_succ]
    · rw [be_value]
      norm_num
      omega
    · rw [wrap_message_for_mega_pro,
          int_to_bytes_be, if_pos (by norm_num at hm ⊢; omega)]
      norm_num [List.range_succ]
  · decide

/-- Witness for C4 applying the universal part at the spec's example
message. -/
theorem c4_witness :
    ([0x90, 0x40, 0x7F] : List Nat).length < 2 ^ 32 ∧
    ∃ lb : List Nat,
      int_to_bytes_be ([0x90, 0x40, 0x7F] : List Nat).length 4 = some lb ∧
      lb.length = 4 ∧ be_value lb = ([0x90, 0x40, 0x7F] : List Nat).length ∧
      wrap_message_for_mega_pro [0x90, 0x40, 0x7F] =
        some (mega_pro_header ++ lb ++ [0x00] ++ [0x90, 0x40, 0x7F]) :=
  ⟨by norm_num, c4_wrap_envelope.1 [0x90, 0x40, 0x7F] (by norm_num)⟩

/-- C10: at a message boundary (empty buffer) the discrimination is on
the high nibble, not the 0x80 status threshold: a byte is recorded as
the new running status exactly when `b &&& 0xF0 ≠ 0` (for bytes, exactly
when b ≥ 0x10), and the running-status substitution producing
`[running_status, b]` fires exactly when `b &&& 0xF0 = 0` (b ≤ 0x0F). -/
theorem c10_boundary_discrimination (rs b : Nat) (hb : b ≤ 0xFF) :
    (b &&& 0xF0 ≠ 0 → running_status_step ⟨[], rs⟩ b = ([b], b)) ∧
    (b &&& 0xF0 = 0 → running_status_step ⟨[], rs⟩ b = ([rs, b], rs)) ∧
    (b &&& 0xF0 = 0 ↔ b ≤ 0x0F) ∧
    (b &&& 0xF0 ≠ 0 ↔ 0x10 ≤ b) := by
  have hiff : b &&& 0xF0 = 0 ↔ b ≤ 0x0F := by
    interval_cases b <;> decide
  refine ⟨fun h => ?_, fun h => ?_, hiff, ?_⟩
  · simp [running_status_step, h]
  · simp [running_status_step, h]
  · rw [ne_eq, hiff]
    omega

/-- Witness for C10: the data byte 0x41 is recorded as running status,
while 0x05 triggers the substitution. -/
theorem c10_witness :
    running_status_step ⟨[], 0x90⟩ 0x41 = ([0x41], 0x41) ∧
    running_status_step ⟨[], 0x90⟩ 0x05 = ([0x90, 0x05], 0x90) :=
  ⟨(c10_boundary_discrimination 0x90 0x41 (by norm_num)).1 (by decide),
   (c10_boundary_discrimination 0x90 0x05 (by norm_num)).2.1 (by decide)⟩

/-- If no remaining name matches, the scan returns its accumulator. -/
theorem scan_ports_no_match (given : List Nat) :
    ∀ (l : List (List Nat)) (i : Nat) (acc : Int),
      (∀ s ∈ l, hasSub given s = false) → scan_ports given l i acc = acc := by
  intro l
  induction l with
  | nil => intro i acc _; rfl
  | cons s rest ih =>
    intro i acc h
    rw [scan_ports]
    rw [if_neg (by simp [h s (by simp)])]
    exact ih (i + 1) acc (fun x hx => h x (by simp [hx]))

/-- If position k matches and no later position matches, the scan
returns the running index plus k. -/
theorem scan_ports_last_match (given : List Nat) :
    ∀ (l : List (List Nat)) (i : Nat) (acc : Int) (k : Nat) (hk : k < l.length),
      hasSub given l[k] = true →
      (∀ (j : Nat) (hj : j < l.length), k < j → hasSub given l[j] = false) →
      scan_ports given l i acc = (i : Int) + k := by
  intro l
  induction l with
  | nil => intro i acc k hk; exact absurd hk (by simp)
  | cons s rest ih =>
    intro i acc k hk hmatch hafter
    match k with
    | 0 =>
      rw [scan_ports]
      simp only [List.getElem_cons_zero] at hmatch
      rw [if_pos (by simp [hmatch])]
      have hnone : ∀ x ∈ rest, hasSub given x = false := by
        intro x hx
        rcases List.mem_iff_getElem.mp hx with ⟨j, hj, hxj⟩
        have := hafter (j + 1) (by simpa using Nat.succ_lt_succ hj) (Nat.succ_pos j)
        simpa [hxj] using this
      rw [scan_ports_no_match given rest (i + 1) i hnone]
      simp
    | k' + 1 =>
      rw [scan_ports]
      have hrec := ih (i + 1) (if hasSub given s then (i : Int) else acc) k'
        (by simpa using Nat.lt_of_succ_lt_succ hk)
        (by simpa using hmatch)
        (fun j hj hlt => by
          have := hafter (j + 1) (by simpa using Nat.succ_lt_succ hj)
            (Nat.succ_lt_succ hlt)
          simpa using this)
      rw [hrec]
      push_cast
      ring

/-- C5 amended: port selection chooses the LAST enumerated name that
contains the configured name as a substring (the loop keeps overwriting
the index on every match), and selection fails (index -1) exactly when
no enumerated name contains it. -/
theorem c5_last_match_amended (given : List Nat) (ports : List (List Nat)) :
    (find_port_index given ports = -1 ↔ ∀ s ∈ ports, hasSub given s = false) ∧
    (∀ (k : Nat) (hk : k < ports.length), hasSub given ports[k] = true →
      (∀ (j : Nat) (hj : j < ports.length), k < j → hasSub given ports[j] = false) →
      find_port_index given ports = k) := by
  constructor
  · constructor
    · intro hfind
      by_contra hex
      push_neg at hex
      rcases hex with ⟨s, hs, hmatch⟩
      have hmatch' : hasSub given s = true := by
        cases hsub : hasSub given s
        · exact absurd hsub hmatch
        · rfl
      rcases List.mem_iff_getElem.mp hs with ⟨j0, hj0, hxj⟩
      have hsome : ∃ k, ∃ hk : k < ports.length,
          hasSub given ports[k] = true ∧
          ∀ (j : Nat) (hj : j < ports.length), k < j →
            hasSub given ports[j] = false := by
        by_contra hnolast
        push_neg at hnolast
        have grow : ∀ (n k : Nat) (hk : k < ports.length),
            hasSub given ports[k] = true →
            ∃ k', ∃ hk' : k' < ports.length, n + k ≤ k' ∧
              hasSub given ports[k'] = true := by
          intro n
          induction n with
          | zero => intro k hk h; exact ⟨k, hk, by omega, h⟩
          | succ n ihn =>
            intro k hk h
            rcases hnolast k hk h with ⟨j, hj, hlt, hjt⟩
            have hjt' : hasSub given ports[j] = true := by
              cases hsub : hasSub given ports[j]
              · exact absurd hsub hjt
              · rfl
            rcases ihn j hj hjt' with ⟨k', hk', hle, ht⟩
            exact ⟨k', hk', by omega, ht⟩
        rcases grow ports.length j0 hj0 (by rw [hxj]; exact hmatch') with
          ⟨k', hk', hle, _⟩
        omega
      rcases hsome with ⟨k, hk, hkt, hkafter⟩
      have := scan_ports_last_match given ports 0 (-1) k hk hkt hkafter
      rw [find_port_index] at hfind
      rw [this] at hfind
      omega
    · intro h
      exact scan_ports_no_match given ports 0 (-1) h
  · intro k hk hkt hkafter
    have := scan_ports_last_match given ports 0 (-1) k hk hkt hkafter
    rw [find_port_index, this]
    simp

/-- Witness for C5: with names `[2]`, `[1]`, `[1, 3]` and configured
name `[1]`, the last containing name (index 2) is selected; with
configured name `[9]` nothing matches and the result is -1. -/
theorem c5_witness :
    find_port_index [1] [[2], [1], [1, 3]] = 2 ∧ find_port_index [9] [[2], [1], [1, 3]] = -1 :=
  ⟨(c5_last_match_amended [1] [[2], [1], [1, 3]]).2 2 (by norm_num) (by decide)
      (fun j hj hlt => by simp at hj; exact absurd hj (by omega)),
   (c5_last_match_amended [9] [[2], [1], [1, 3]]).1.mpr (by decide)⟩

/-- The classifier never returns 0. -/
theorem get_midi_length_pos (l : List Nat) : 1 ≤ get_midi_length l := by
  match l with
  | [] => decide
  | o :: t =>
    have hlen : (o :: t).length = t.length + 1 := by simp
    rw [get_midi_length_cons]
    split_ifs <;> omega

/-- Classifier value on a two-byte buffer: either 1 together with a
first byte ≥ 0xF4, or 2, or at least 3. -/
theorem get_midi_length_pair (x y : Nat) :
    get_midi_length [x, y] = 1 ∧ 0xF4 ≤ x ∨ get_midi_length [x, y] = 2 ∨
      3 ≤ get_midi_length [x, y] := by
  rw [get_midi_length_cons]
  split_ifs with h1 h2 h3 h4 h5 h6
  · exact Or.inl ⟨rfl, h1⟩
  · exact Or.inr (Or.inl rfl)
  · exact Or.inr (Or.inr (by omega))
  · exact Or.inr (Or.inl (by simp))
  · exact Or.inr (Or.inr (by omega))
  · exact Or.inr (Or.inl rfl)
  · exact Or.inr (Or.inr (by omega))

/-- After every feed the retained buffer is incomplete: its classifier
verdict strictly exceeds its length (for the cleared buffer the verdict
is the sentinel 100).  This is the loop invariant of `serial_watcher`
that justifies the hypothesis of the amended C7. -/
theorem feedByte_incomplete (st : RSState) (b : Nat) :
    ((feedByte st b).1).receiving_message.length <
      get_midi_length ((feedByte st b).1).receiving_message := by
  rw [feedByte]
  split
  · simp [get_midi_length]
  · next h => exact Nat.not_le.mp h

/-- C7 amended: whenever the reassembler emits from a buffer that is
incomplete before the byte arrives, the emitted message's length equals
the classifier's verdict, EXCEPT in the running-status continuation
case with a stored running status ≥ 0xF4: there the synthesized
two-byte buffer `[running_status, b]` is emitted although its verdict
is 1 — the emission condition fires with the verdict strictly smaller
than the buffer length. -/
theorem c7_emission_length_amended (st : RSState) (b : Nat) (m : List Nat)
    (hinv : st.receiving_message.length < get_midi_length st.receiving_message)
    (hemit : (feedByte st b).2 = some m) :
    get_midi_length m = m.length ∨
      (st.receiving_message = [] ∧ b &&& 0xF0 = 0 ∧ 0xF4 ≤ st.running_status ∧
        m = [st.running_status, b] ∧ get_midi_length m = 1) := by
  rw [feedByte] at hemit
  split at hemit
  case isFalse => simp at hemit
  case isTrue hc =>
    simp only [Option.some.injEq] at hemit
    rcases hbuf : st.receiving_message with _ | ⟨o, t⟩
    · -- empty buffer before the feed: the running-status block applies
      by_cases hb0 : b &&& 0xF0 = 0
      · have hstep : running_status_step st b = ([st.running_status, b], st.running_status) := by
          rw [running_status_step, hbuf]
          simp [hb0]
        rw [hstep] at hemit hc
        rcases get_midi_length_pair st.running_status b with ⟨h1, hge⟩ | h2 | h3
        · exact Or.inr ⟨rfl, hb0, hge, hemit.symm, by rw [← hemit]; exact h1⟩

        · left
          rw [← hemit, h2]
          simp
        · simp only [List.length_cons, List.length_nil] at hc
          omega
      · have hstep : running_status_step st b = ([b], b) := by
          rw [running_status_step, hbuf]
          simp [hb0]
        rw [hstep] at hemit hc
        left
        have h1 := get_midi_length_pos [b]
        simp only [List.length_cons, List.length_nil] at hc
        rw [← hemit]
        simp only [List.length_cons, List.length_nil]
        omega
    · -- nonempty buffer: the byte is appended, no substitution
      have hstep : running_status_step st b = (o :: (t ++ [b]), st.running_status) := by
        rw [running_status_step, hbuf]
        rw [if_neg (by simp only [List.cons_append, List.length_cons,
          List.length_append, List.length_nil]; omega)]
        simp
      rw [hstep] at hemit hc
      rw [hbuf] at hinv
      left
      rw [← hemit]
      simp only [List.length_cons, List.length_append, List.length_nil] at hc ⊢
      by_cases h1 : 0xF4 ≤ o
      · rw [get_midi_length_cons, if_pos h1] at hinv
        simp only [List.length_cons] at hinv
        omega
      · by_cases h2 : o = 0xF1 ∨ o = 0xF3
        · rw [get_midi_length_cons, if_neg h1, if_pos h2] at hinv
          rw [get_midi_length_cons, if_neg h1, if_pos h2]
          simp only [List.length_cons] at hinv
          omega
        · by_cases h3 : o = 0xF2
          · rw [get_midi_length_cons, if_neg h1, if_neg h2, if_pos h3] at hinv
            rw [get_midi_length_cons, if_neg h1, if_neg h2, if_pos h3] at hc ⊢
            simp only [List.length_cons] at hinv
            omega
          · by_cases ho : o = 0xF0
            · subst ho
              by_cases hl : ((0xF0 : Nat) :: t).getLastD 0 = 0xF7
              · rw [get_midi_length_cons, if_neg h1, if_neg h2, if_neg h3,
                    if_pos ⟨rfl, hl⟩] at hinv
                exact absurd hinv (lt_irrefl _)
              · rw [get_midi_length_cons, if_neg h1, if_neg h2, if_neg h3,
                    if_neg (fun hcon => hl hcon.2), if_neg (by decide),
                    if_neg (by decide)] at hinv
                simp only [List.length_cons] at hinv
                by_cases hb7 : ((0xF0 : Nat) :: (t ++ [b])).getLastD 0 = 0xF7
                · rw [get_midi_length_cons, if_neg h1, if_neg h2, if_neg h3,
                      if_pos ⟨rfl, hb7⟩]
                  simp only [List.length_cons, List.length_append, List.length_nil]
                · rw [get_midi_length_cons, if_neg h1, if_neg h2, if_neg h3,
                      if_neg (fun hcon => hb7 hcon.2), if_neg (by decide),
                      if_neg (by decide)] at hc ⊢
                  omega
            · by_cases h5 : o &&& 0xF0 = 0x80 ∨ o &&& 0xF0 = 0x90 ∨ o &&& 0xF0 = 0xA0 ∨
                  o &&& 0xF0 = 0xB0 ∨ o &&& 0xF0 = 0xE0
              · rw [get_midi_length_cons, if_neg h1, if_neg h2, if_neg h3,
                    if_neg (fun hcon => ho hcon.1), if_pos h5] at hinv
                rw [get_midi_length_cons, if_neg h1, if_neg h2, if_neg h3,
                    if_neg (fun hcon => ho hcon.1), if_pos h5] at hc ⊢
                simp only [List.length_cons] at hinv
                omega
              · by_cases h6 : o &&& 0xF0 = 0xC0 ∨ o &&& 0xF0 = 0xD0
                · rw [get_midi_length_cons, if_neg h1, if_neg h2, if_neg h3,
                      if_neg (fun hcon => ho hcon.1), if_neg h5, if_pos h6] at hinv
                  rw [get_midi_length_cons, if_neg h1, if_neg h2, if_neg h3,
                      if_neg (fun hcon => ho hcon.1), if_neg h5, if_pos h6]
                  simp only [List.length_cons] at hinv
                  omega
                · rw [get_midi_length_cons, if_neg h1, if_neg h2, if_neg h3,
                      if_neg (fun hcon => ho hcon.1), if_neg h5, if_neg h6] at hinv
                  rw [get_midi_length_cons, if_neg h1, if_neg h2, if_neg h3,
                      if_neg (fun hcon => ho hcon.1), if_neg h5, if_neg h6] at hc ⊢
                  simp only [List.length_cons] at hinv
                  omega

/-- Witness for C7: completing a note-on from the incomplete buffer
`[0x90, 0x40]` emits a message whose classifier verdict equals its
length. -/
theorem c7_witness :
    (feedByte ⟨[0x90, 0x40], 0x90⟩ 0x7F).2 = some [0x90, 0x40, 0x7F] ∧
    (get_midi_length [0x90, 0x40, 0x7F] = ([0x90, 0x40, 0x7F] : List Nat).length ∨
      (([0x90, 0x40] : List Nat) = [] ∧ (0x7F : Nat) &&& 0xF0 = 0 ∧
        (0xF4 : Nat) ≤ 0x90 ∧ ([0x90, 0x40, 0x7F] : List Nat) = [0x90, 0x7F] ∧
        get_midi_length [0x90, 0x40, 0x7F] = 1)) :=
  ⟨by decide, c7_emission_length_amended ⟨[0x90, 0x40], 0x90⟩ 0x7F [0x90, 0x40, 0x7F]
    (by decide) (by decide)⟩

/-- C8 amended: when neither MIDI port resolution succeeds, the system
reports the failure and stops (no retry) without opening any MIDI port
— but the serial transport, opened during startup before port
resolution, is still open at termination whenever its opening
succeeded. -/
theorem c8_port_failure_amended (serial_ok : Bool) (name_in name_out : List Nat)
    (ports_in ports_out : List (List Nat))
    (hin : find_port_index name_in ports_in = -1)
    (hout : find_port_index name_out ports_out = -1) :
    (start serial_ok name_in name_out ports_in ports_out).reported_midi_failure = true ∧
    (start serial_ok name_in name_out ports_in ports_out).midi_in_open = false ∧
    (start serial_ok name_in name_out ports_in ports_out).midi_out_open = false ∧
    (start serial_ok name_in name_out ports_in ports_out).thread_running = false ∧
    (start serial_ok name_in name_out ports_in ports_out).exited = true ∧
    (start serial_ok name_in name_out ports_in ports_out).serial_open = serial_ok := by
  cases serial_ok <;> simp [start, midi_watcher, hin, hout, initState]

/-- Witness for C8 on a concrete failing enumeration with the serial
port open. -/
theorem c8_witness :
    (start true [9] [9] [[1], [2]] [[3]]).reported_midi_failure = true ∧
    (start true [9] [9] [[1], [2]] [[3]]).midi_in_open = false ∧
    (start true [9] [9] [[1], [2]] [[3]]).midi_out_open = false ∧
    (start true [9] [9] [[1], [2]] [[3]]).thread_running = false ∧
    (start true [9] [9] [[1], [2]] [[3]]).exited = true ∧
    (start true [9] [9] [[1], [2]] [[3]]).serial_open = true :=
  c8_port_failure_amended true [9] [9] [[1], [2]] [[3]] (by decide) (by decide)

end Serialmidi
